import Mathlib

/-!
Verification development for the drobo command-line client
(src/drobo/commands.py, src/drobo/cli.py, src/drobo/dropbox_client.py).

The Python code is shallowly embedded: pure helpers become Lean functions
over character lists and strings, and the stateful command handlers become
computations in a state-trace-exception monad over an explicit world
(remote store plus local filesystem).  External library behaviour that the
code relies on (posixpath.normpath, os.path.abspath, os.path.split,
glob.glob, fnmatch.fnmatch and the remote store API) is modelled from its
documented semantics.
-/

/-- Characters that os.path and the path helpers treat as the separator. -/
def isSlash (c : Char) : Bool := c = '/'

/-- Drop every leading separator, the re.sub("^/+", "", path) step. -/
def dropLeadingSlashes (l : List Char) : List Char := l.dropWhile isSlash

/-- Split a character list on the separator; adjacent separators yield
empty segments, as str.split("/") does. -/
def splitSegs : List Char → List (List Char)
  | [] => [[]]
  | c :: rest =>
    let r := splitSegs rest
    if isSlash c then [] :: r
    else
      match r with
      | s :: ss => (c :: s) :: ss
      | [] => [[c]]

/-- Join segments with a single separator. -/
def joinSegs : List (List Char) → List Char
  | [] => []
  | [s] => s
  | s :: rest => s ++ '/' :: joinSegs rest

/-- The effect of a ".." segment on the stack of kept segments: above the
root it is dropped on absolute paths and kept on relative ones, and it
never pops an earlier "..". -/
def popSeg (abs : Bool) (acc : List (List Char)) : List (List Char) :=
  match acc with
  | [] => if abs then [] else [['.', '.']]
  | top :: acc2 => if top = ['.', '.'] then ['.', '.'] :: top :: acc2 else acc2

/-- Structural resolution of ".", ".." and empty segments, the loop inside
posixpath.normpath. -/
def resolveDots (abs : Bool) (acc : List (List Char)) : List (List Char) → List (List Char)
  | [] => acc.reverse
  | seg :: rest =>
    if seg = [] ∨ seg = ['.'] then resolveDots abs acc rest
    else if seg = ['.', '.'] then resolveDots abs (popSeg abs acc) rest
    else resolveDots abs (seg :: acc) rest

/-- posixpath.normpath over characters: POSIX keeps exactly two leading
slashes special, one and three-or-more collapse to one, and an empty
result is the current directory ".". -/
def normpathL (l : List Char) : List Char :=
  let lead := (l.takeWhile isSlash).length
  let slashes : List Char :=
    if lead = 2 then ['/', '/'] else if 1 ≤ lead then ['/'] else []
  let segs := resolveDots (1 ≤ lead) [] (splitSegs (l.dropWhile isSlash))
  let res := slashes ++ joinSegs segs
  if res = [] then ['.'] else res

/-- posixpath.join for the two-argument uses in the code: an absolute
second argument wins, otherwise one separator is inserted when needed. -/
def posixJoinL (a b : List Char) : List Char :=
  if b.head? = some '/' then b
  else if a = [] then b
  else if a.getLast? = some '/' then a ++ b
  else a ++ '/' :: b

/-- os.path.join on strings, as used on remote paths in commands.py. -/
def posixJoin (a b : String) : String := (posixJoinL a.toList b.toList).asString

/-- os.path.abspath with an explicit current working directory. -/
def posixAbspath (cwd p : String) : String :=
  if p.toList.head? = some '/' then (normpathL p.toList).asString
  else (normpathL (posixJoinL cwd.toList p.toList)).asString

/-- os.path.split: splits at the final separator; the head keeps a root
slash run but otherwise loses trailing separators. -/
def ospathSplit (p : String) : String × String :=
  let l := p.toList
  let tail := (l.reverse.takeWhile (fun c => ¬ isSlash c)).reverse
  let head := l.take (l.length - tail.length)
  let head2 := if head ≠ [] ∧ ¬ head.all isSlash
    then (head.reverse.dropWhile isSlash).reverse else head
  (head2.asString, tail.asString)

/-- os.path.dirname. -/
def ospathDirname (p : String) : String := (ospathSplit p).1

/-- os.path.basename. -/
def ospathBasename (p : String) : String := (ospathSplit p).2

/-- commands.py _is_remote_path: a remote path starts with the // marker. -/
def is_remote_path (p : String) : Bool :=
  match p.toList with
  | '/' :: '/' :: _ => true
  | _ => false

/-- commands.py _has_wildcards: any of * ? [ ] counts as a wildcard. -/
def has_wildcards (p : String) : Bool :=
  p.toList.any (fun c => c = '*' ∨ c = '?' ∨ c = '[' ∨ c = ']')

/-- commands.py _normalize_remote_path: empty and "//" map to the root
form "//"; everything else is os.path.abspath of "//" plus the input with
its leading slashes stripped. -/
def normalize_remote_path (path : String) : String :=
  if path = "" ∨ path = "//" then "//"
  else (normpathL ('/' :: '/' :: dropLeadingSlashes path.toList)).asString

/-- A segment that survives normalization: not empty, not ".", not "..". -/
def goodSeg (s : List Char) : Prop := s ≠ [] ∧ s ≠ ['.'] ∧ s ≠ ['.', '.']

theorem resolveDots_nil (abs : Bool) (acc : List (List Char)) :
    resolveDots abs acc [] = acc.reverse := rfl

theorem resolveDots_cons (abs : Bool) (acc : List (List Char))
    (seg : List Char) (rest : List (List Char)) :
    resolveDots abs acc (seg :: rest) =
      if seg = [] ∨ seg = ['.'] then resolveDots abs acc rest
      else if seg = ['.', '.'] then resolveDots abs (popSeg abs acc) rest
      else resolveDots abs (seg :: acc) rest := rfl

theorem popSeg_good (acc : List (List Char)) (hacc : ∀ s ∈ acc, goodSeg s) :
    ∀ s ∈ popSeg true acc, goodSeg s := by
  cases acc with
  | nil => simp [popSeg]
  | cons top acc2 =>
    have htop : top ≠ ['.', '.'] := (hacc top (by simp)).2.2
    intro s hs
    rw [popSeg, if_neg htop] at hs
    exact hacc s (by simp [hs])

theorem resolveDots_good :
    ∀ (input acc : List (List Char)), (∀ s ∈ acc, goodSeg s) →
      ∀ s ∈ resolveDots true acc input, goodSeg s := by
  intro input
  induction input with
  | nil =>
    intro acc hacc s hs
    rw [resolveDots_nil] at hs
    exact hacc s (List.mem_reverse.mp hs)
  | cons seg rest ih =>
    intro acc hacc s hs
    rw [resolveDots_cons] at hs
    by_cases h1 : seg = [] ∨ seg = ['.']
    · rw [if_pos h1] at hs
      exact ih acc hacc s hs
    · rw [if_neg h1] at hs
      by_cases h2 : seg = ['.', '.']
      · rw [if_pos h2] at hs
        exact ih (popSeg true acc) (popSeg_good acc hacc) s hs
      · rw [if_neg h2] at hs
        refine ih (seg :: acc) ?_ s hs
        intro t ht
        rcases List.mem_cons.mp ht with h | h
        · subst h
          push_neg at h1
          exact ⟨h1.1, h1.2, h2⟩
        · exact hacc t h

theorem takeWhile_dropWhile_slashes (l : List Char) :
    (l.dropWhile isSlash).takeWhile isSlash = [] := by
  induction l with
  | nil => simp
  | cons c rest ih =>
    by_cases h : isSlash c
    · simpa [List.dropWhile, h] using ih
    · simp [List.dropWhile, List.takeWhile, h]

theorem dropWhile_of_takeWhile_nil {p : Char → Bool} {l : List Char}
    (h : l.takeWhile p = []) : l.dropWhile p = l := by
  cases l with
  | nil => rfl
  | cons c rest =>
    by_cases hc : p c
    · simp [List.takeWhile, hc] at h
    · simp [List.dropWhile, hc]

/-- C8 (amended): normalize_remote_path keeps the // marker: its result is
"//" followed by the resolved segments, none of which is empty, "." or
"..", so the only duplicate slashes are the two of the marker and the root
is rendered as "//" rather than the empty string. -/
theorem normalize_remote_path_shape (p : String) :
    ∃ segs : List (List Char),
      normalize_remote_path p = ('/' :: '/' :: joinSegs segs).asString ∧
      ∀ s ∈ segs, s ≠ [] ∧ s ≠ ['.'] ∧ s ≠ ['.', '.'] := by
  by_cases h : p = "" ∨ p = "//"
  · refine ⟨[], ?_, by simp⟩
    rw [normalize_remote_path, if_pos h]
    rfl
  · refine ⟨resolveDots true [] (splitSegs (dropLeadingSlashes p.toList)), ?_, ?_⟩
    · rw [normalize_remote_path, if_neg h]
      have hds : (dropLeadingSlashes p.toList).takeWhile isSlash = [] :=
        takeWhile_dropWhile_slashes p.toList
      have hslash : isSlash '/' = true := rfl
      have htake : (('/' : Char) :: '/' :: dropLeadingSlashes p.toList).takeWhile isSlash
          = ['/', '/'] := by
        rw [List.takeWhile_cons, if_pos hslash, List.takeWhile_cons, if_pos hslash, hds]
      have hdrop : (('/' : Char) :: '/' :: dropLeadingSlashes p.toList).dropWhile isSlash
          = dropLeadingSlashes p.toList := by
        rw [List.dropWhile_cons, if_pos hslash, List.dropWhile_cons, if_pos hslash,
          dropWhile_of_takeWhile_nil hds]
      have hbody : normpathL ('/' :: '/' :: dropLeadingSlashes p.toList)
          = '/' :: '/' :: joinSegs (resolveDots true [] (splitSegs (dropLeadingSlashes p.toList))) := by
        simp only [normpathL, htake, hdrop, List.length_cons, List.length_nil]
        norm_num
        intro hx
        exact absurd hx (List.cons_ne_nil _ _)
      rw [hbody]
    · intro s hs
      exact resolveDots_good _ [] (by simp) s hs

/-- C8 counterexample: on the root input "//" the function returns "//",
not the empty string the claim demands. -/
theorem normalize_remote_path_root_counterexample :
    normalize_remote_path "//" = "//" ∧ "//" ≠ ("" : String) := by
  exact ⟨rfl, by decide⟩

/-- A Python value that can appear as a modification time: a structured
datetime (which has a .timestamp() method), a float such as the result of
os.path.getmtime, or a plain string. -/
inductive PyVal
  | dt (t : Int)
  | fl (t : Int)
  | str (s : String)
  deriving DecidableEq, Repr

/-- Python truthiness of an optional value, the test "if x and y:" in
_move_file: None, 0.0 and "" are falsy, datetimes are always truthy. -/
def truthy : Option PyVal → Bool
  | none => false
  | some (.dt _) => true
  | some (.fl t) => decide (t ≠ 0)
  | some (.str s) => decide (s ≠ "")

/-- Python strict comparison between time keys; comparing a number with a
string raises TypeError. -/
inductive CmpErr
  | typeErr
  deriving DecidableEq, Repr

/-- Errors the embedded commands can raise. -/
inductive ApiErrKind
  | fromNotFound
  | toConflict
  | notFound
  deriving DecidableEq, Repr

inductive Err
  | clickErr (msg : String)
  | valueErr (msg : String)
  | apiErr (k : ApiErrKind)
  | fileNotFound (msg : String)
  | osErr (msg : String)
  | typeErr
  | fuelOut
  deriving DecidableEq, Repr

/-- Python < on time values. -/
def pyLt : PyVal → PyVal → Except Err Bool
  | .dt a, .dt b => .ok (decide (a < b))
  | .fl a, .fl b => .ok (decide (a < b))
  | .str a, .str b => .ok (decide (a < b))
  | _, _ => .error .typeErr

/-- Python <= on time values. -/
def pyLe : PyVal → PyVal → Except Err Bool
  | .dt a, .dt b => .ok (decide (a ≤ b))
  | .fl a, .fl b => .ok (decide (a ≤ b))
  | .str a, .str b => .ok (decide (a ≤ b))
  | _, _ => .error .typeErr

/-- One entry of a remote listing as built by DropboxClient.list_folder:
folders carry no size and no modified value, mirroring the dict that only
gains those keys for FileMetadata. -/
structure Item where
  name : String
  dir : String
  path : String
  type : String
  size : Option Nat
  modified : Option PyVal
  deriving DecidableEq, Repr

/-- The get_modified_time key of ls_with_options: a datetime becomes its
timestamp (a float), a string stays a string, anything else becomes "". -/
def get_modified_time (item : Item) : PyVal :=
  match item.modified with
  | some (.dt t) => .fl t
  | some (.str s) => .str s
  | some (.fl _) => .str ""
  | none => .str ""

/-- The size key x.get("size", 0) of the size sort. -/
def sizeKey (x : Item) : Nat := x.size.getD 0

/-- sorted(items, key=lambda x: x.get("size", 0), reverse=True): a stable
descending sort, so an element is inserted before another exactly when its
key is strictly greater or the other comes later in the input. -/
def sort_by_size (items : List Item) : List Item :=
  items.insertionSort (fun a b => sizeKey b ≤ sizeKey a)

/-- Python string comparison: lexicographic on code points. -/
def charListLe : List Char → List Char → Bool
  | [], _ => true
  | _ :: _, [] => false
  | a :: as, b :: bs => if a = b then charListLe as bs else decide (a < b)

def pyStrLe (a b : String) : Bool := charListLe a.data b.data

theorem charListLe_total : ∀ a b : List Char,
    charListLe a b = true ∨ charListLe b a = true := by
  intro a
  induction a with
  | nil => intro b; exact Or.inl rfl
  | cons x xs ih =>
    intro b
    cases b with
    | nil => exact Or.inr rfl
    | cons y ys =>
      by_cases hxy : x = y
      · subst hxy
        rcases ih ys with h | h
        · exact Or.inl (by simp [charListLe, h])
        · exact Or.inr (by simp [charListLe, h])
      · rcases lt_or_gt_of_ne hxy with h | h
        · exact Or.inl (by simp [charListLe, hxy, h])
        · exact Or.inr (by simp [charListLe, Ne.symm hxy, h, not_lt_of_gt h])

theorem charListLe_trans : ∀ a b c : List Char,
    charListLe a b = true → charListLe b c = true → charListLe a c = true := by
  intro a
  induction a with
  | nil => intro b c _ _; rfl
  | cons x xs ih =>
    intro b c h1 h2
    cases b with
    | nil => simp [charListLe] at h1
    | cons y ys =>
      cases c with
      | nil => simp [charListLe] at h2
      | cons z zs =>
        rw [charListLe] at h1 h2 ⊢
        by_cases hxy : x = y
        · subst hxy
          rw [if_pos rfl] at h1
          by_cases hyz : x = z
          · subst hyz
            rw [if_pos rfl] at h2
            rw [if_pos rfl]
            exact ih ys zs h1 h2
          · rw [if_neg hyz] at h2
            rw [if_neg hyz]
            exact h2
        · rw [if_neg hxy] at h1
          have hlt1 : x < y := of_decide_eq_true h1
          by_cases hyz : y = z
          · subst hyz
            rw [if_neg hxy]
            exact h1
          · rw [if_neg hyz] at h2
            have hlt2 : y < z := of_decide_eq_true h2
            have hxz : x < z := lt_trans hlt1 hlt2
            rw [if_neg (ne_of_lt hxz)]
            exact decide_eq_true hxz

theorem pyStrLe_total (a b : String) : pyStrLe a b = true ∨ pyStrLe b a = true :=
  charListLe_total a.data b.data

theorem pyStrLe_trans {a b c : String} (h1 : pyStrLe a b = true)
    (h2 : pyStrLe b c = true) : pyStrLe a c = true :=
  charListLe_trans a.data b.data c.data h1 h2

/-- sorted(items, key=lambda x: x["name"]): stable ascending by name. -/
def sort_by_name (items : List Item) : List Item :=
  items.insertionSort (fun a b => pyStrLe a.name b.name = true)

/-- Stable descending insertion on the modification-time key, where each
comparison can raise TypeError, as sorted(..., key=get_modified_time,
reverse=True) does when the keys mix floats and strings. -/
def orderedInsertTime (a : Item) : List Item → Except Err (List Item)
  | [] => .ok [a]
  | b :: l =>
    match pyLt (get_modified_time a) (get_modified_time b) with
    | .error e => .error e
    | .ok true =>
      match orderedInsertTime a l with
      | .error e => .error e
      | .ok r => .ok (b :: r)
    | .ok false => .ok (a :: b :: l)

/-- The time sort of ls_with_options. -/
def sort_by_time : List Item → Except Err (List Item)
  | [] => .ok []
  | b :: l =>
    match sort_by_time l with
    | .error e => .error e
    | .ok r => orderedInsertTime b r

/-- The sorting block of ls_with_options (lines 113-137): exactly one of
the three orders is applied, then reverse is applied as a final pass over
the already-sorted sequence. -/
def ls_order (sbs sbt rev : Bool) (items : List Item) : Except Err (List Item) :=
  match (if sbs then .ok (sort_by_size items)
         else if sbt then sort_by_time items
         else .ok (sort_by_name items) : Except Err (List Item)) with
  | .error e => .error e
  | .ok sorted => .ok (if rev then sorted.reverse else sorted)

theorem orderedInsertTime_perm (a : Item) :
    ∀ (l r : List Item), orderedInsertTime a l = .ok r → r.Perm (a :: l) := by
  intro l
  induction l with
  | nil =>
    intro r hr
    simp only [orderedInsertTime, Except.ok.injEq] at hr
    subst hr
    rfl
  | cons b l ih =>
    intro r hr
    rw [orderedInsertTime] at hr
    cases hlt : pyLt (get_modified_time a) (get_modified_time b) with
    | error e => rw [hlt] at hr; cases hr
    | ok v =>
      rw [hlt] at hr
      cases v with
      | true =>
        cases hrec : orderedInsertTime a l with
        | error e => rw [hrec] at hr; cases hr
        | ok r2 =>
          rw [hrec] at hr
          simp only [Except.ok.injEq] at hr
          subst hr
          exact ((ih r2 hrec).cons b).trans (List.Perm.swap a b l)
      | false =>
        simp only [Except.ok.injEq] at hr
        subst hr
        rfl

theorem sort_by_time_perm :
    ∀ (l r : List Item), sort_by_time l = .ok r → r.Perm l := by
  intro l
  induction l with
  | nil =>
    intro r hr
    simp only [sort_by_time, Except.ok.injEq] at hr
    subst hr
    rfl
  | cons b l ih =>
    intro r hr
    rw [sort_by_time] at hr
    cases hrec : sort_by_time l with
    | error e => rw [hrec] at hr; cases hr
    | ok r2 =>
      rw [hrec] at hr
      exact (orderedInsertTime_perm b r2 r hr).trans ((ih r2 hrec).cons b)

theorem ls_order_perm (sbs sbt rev : Bool) (items out : List Item)
    (h : ls_order sbs sbt rev items = .ok out) : out.Perm items := by
  rw [ls_order] at h
  have core : ∀ s : List Item,
      (if sbs then (.ok (sort_by_size items) : Except Err (List Item))
       else if sbt then sort_by_time items
       else .ok (sort_by_name items)) = .ok s → s.Perm items := by
    intro s hs
    by_cases h1 : sbs
    · rw [if_pos h1] at hs
      simp only [Except.ok.injEq] at hs
      subst hs
      exact List.perm_insertionSort _ items
    · rw [if_neg h1] at hs
      by_cases h2 : sbt
      · rw [if_pos h2] at hs
        exact sort_by_time_perm items s hs
      · rw [if_neg h2] at hs
        simp only [Except.ok.injEq] at hs
        subst hs
        exact List.perm_insertionSort _ items
  cases hs : (if sbs then (.ok (sort_by_size items) : Except Err (List Item))
      else if sbt then sort_by_time items
      else .ok (sort_by_name items)) with
  | error e => rw [hs] at h; cases h
  | ok s =>
    rw [hs] at h
    simp only [Except.ok.injEq] at h
    subst h
    by_cases hr : rev
    · rw [if_pos hr]
      exact (List.reverse_perm s).trans (core s hs)
    · rw [if_neg hr]
      exact core s hs

theorem filter_orderedInsert_size (v : Nat) (x : Item) :
    ∀ l : List Item,
      (l.orderedInsert (fun a b => sizeKey b ≤ sizeKey a) x).filter
          (fun y => decide (sizeKey y = v)) =
        if sizeKey x = v then x :: l.filter (fun y => decide (sizeKey y = v))
        else l.filter (fun y => decide (sizeKey y = v)) := by
  intro l
  induction l with
  | nil =>
    by_cases hx : sizeKey x = v
    · simp [List.orderedInsert, List.filter, hx]
    · simp [List.orderedInsert, List.filter, hx]
  | cons b l ih =>
    rw [List.orderedInsert]
    by_cases hle : sizeKey b ≤ sizeKey x
    · rw [if_pos hle]
      by_cases hx : sizeKey x = v
      · simp [List.filter, hx]
      · simp [List.filter, hx]
    · rw [if_neg hle]
      have hbv : sizeKey x < sizeKey b := lt_of_not_le hle
      by_cases hx : sizeKey x = v
      · have hbne : ¬ sizeKey b = v := by omega
        rw [if_pos hx]
        rw [List.filter_cons, List.filter_cons, decide_eq_false hbne]
        simp only [Bool.false_eq_true, if_false]
        rw [ih, if_pos hx]
      · rw [if_neg hx]
        rw [List.filter_cons, List.filter_cons]
        by_cases hb : sizeKey b = v
        · rw [decide_eq_true hb]
          simp only [if_true]
          rw [ih, if_neg hx]
        · rw [decide_eq_false hb]
          simp only [Bool.false_eq_true, if_false]
          rw [ih, if_neg hx]

theorem sort_by_size_stable (v : Nat) :
    ∀ items : List Item,
      (sort_by_size items).filter (fun y => decide (sizeKey y = v)) =
        items.filter (fun y => decide (sizeKey y = v)) := by
  intro items
  induction items with
  | nil => rfl
  | cons x xs ih =>
    show ((sort_by_size xs).orderedInsert (fun a b => sizeKey b ≤ sizeKey a) x).filter
        (fun y => decide (sizeKey y = v)) = _
    rw [filter_orderedInsert_size, ih]
    by_cases hx : sizeKey x = v
    · rw [if_pos hx]
      simp [List.filter_cons, hx]
    · rw [if_neg hx]
      simp [List.filter_cons, decide_eq_false hx]

/-- C9: with no sort flags ls orders by name ascending; with sortBySize the
output is size-descending and stable (entries with equal size keys keep
their input order), and adding reverse yields exactly the element-wise
reversal of the sortBySize output, because reverse is applied as a final
pass after sorting. -/
theorem ls_order_default_and_reverse (items : List Item) :
    (∃ dflt, ls_order false false false items = .ok dflt ∧ dflt.Perm items ∧
      dflt.Pairwise (fun a b => pyStrLe a.name b.name = true)) ∧
    (∃ bySize, ls_order true false false items = .ok bySize ∧
      ls_order true false true items = .ok bySize.reverse ∧
      bySize.Perm items ∧
      bySize.Pairwise (fun a b => sizeKey b ≤ sizeKey a) ∧
      ∀ v, bySize.filter (fun y => decide (sizeKey y = v)) =
        items.filter (fun y => decide (sizeKey y = v))) := by
  constructor
  · refine ⟨sort_by_name items, rfl, List.perm_insertionSort _ items, ?_⟩
    haveI : IsTotal Item (fun a b => pyStrLe a.name b.name = true) :=
      ⟨fun a b => pyStrLe_total a.name b.name⟩
    haveI : IsTrans Item (fun a b => pyStrLe a.name b.name = true) :=
      ⟨fun _ _ _ h1 h2 => pyStrLe_trans h1 h2⟩
    exact List.sorted_insertionSort _ items
  · refine ⟨sort_by_size items, rfl, rfl, List.perm_insertionSort _ items, ?_,
      fun v => sort_by_size_stable v items⟩
    haveI : IsTotal Item (fun a b => sizeKey b ≤ sizeKey a) :=
      ⟨fun a b => le_total (sizeKey b) (sizeKey a)⟩
    haveI : IsTrans Item (fun a b => sizeKey b ≤ sizeKey a) :=
      ⟨fun _ _ _ h1 h2 => le_trans h2 h1⟩
    exact List.sorted_insertionSort _ items

/-- One entry of the remote store, identified by its API path ("/a/b.txt";
folders carry no size or modified value, like FolderMetadata). -/
structure RemoteEntry where
  path : String
  isFolder : Bool
  size : Nat
  modified : Option PyVal
  deriving DecidableEq, Repr

/-- The world a command invocation runs against: the remote store and the
local filesystem (files with their os.path.getmtime, directories, cwd). -/
structure World where
  cwd : String
  remote : List RemoteEntry
  localFiles : List (String × Int)
  localDirs : List String
  deriving DecidableEq, Repr

/-- Observable effects: one event per remote-API or local-filesystem call. -/
inductive Ev
  | listFolder (path : String)
  | getMeta (path : String)
  | apiCopy (src dst : String)
  | apiMove (src dst : String)
  | apiDelete (path : String)
  | apiUpload (src dst : String)
  | apiDownload (src dst : String)
  | apiCreateFolder (path : String)
  | osRemove (path : String)
  | osMakedirs (path : String)
  deriving DecidableEq, Repr

/-- State-trace-exception monad: a computation transforms the world,
records the calls it makes in order, and either returns or raises.  State
changes and recorded events survive a raise, as they do in Python. -/
def M (α : Type) : Type := World → World × List Ev × Except Err α

def M.pure {α} (a : α) : M α := fun w => (w, [], .ok a)

def M.bind {α β} (x : M α) (f : α → M β) : M β := fun w =>
  match x w with
  | (w2, evs, .ok a) =>
    match f a w2 with
    | (w3, evs2, r) => (w3, evs ++ evs2, r)
  | (w2, evs, .error e) => (w2, evs, .error e)

def M.throw {α} (e : Err) : M α := fun w => (w, [], .error e)

def M.emit (ev : Ev) : M Unit := fun w => (w, [ev], .ok ())

def M.getW : M World := fun w => (w, [], .ok w)

def M.setW (w2 : World) : M Unit := fun _ => (w2, [], .ok ())

/-- A try: the result is reified so an except-clause can inspect it. -/
def M.attempt {α} (x : M α) : M (Except Err α) := fun w =>
  match x w with
  | (w2, evs, r) => (w2, evs, .ok r)

def runW {α} (x : M α) (w : World) : World := (x w).1

def runTrace {α} (x : M α) (w : World) : List Ev := (x w).2.1

def runRes {α} (x : M α) (w : World) : Except Err α := (x w).2.2

theorem M.bind_eq_ok {α β} {x : M α} {f : α → M β} {w w2 : World}
    {evs : List Ev} {a : α} (h : x w = (w2, evs, .ok a)) :
    M.bind x f w = ((f a w2).1, evs ++ (f a w2).2.1, (f a w2).2.2) := by
  rw [M.bind, h]

theorem M.bind_eq_error {α β} {x : M α} {f : α → M β} {w w2 : World}
    {evs : List Ev} {e : Err} (h : x w = (w2, evs, .error e)) :
    M.bind x f w = (w2, evs, .error e) := by
  rw [M.bind, h]

def World.findEntry (w : World) (p : String) : Option RemoteEntry :=
  w.remote.find? (fun e => e.path == p)

def World.isLocalFile (w : World) (p : String) : Bool :=
  w.localFiles.any (fun q => q.1 == p)

def World.isLocalDir (w : World) (p : String) : Bool :=
  w.localDirs.any (fun q => q == p)

/-- os.path.lexists on the modelled local filesystem. -/
def World.localExists (w : World) (p : String) : Bool :=
  w.isLocalFile p || w.isLocalDir p

/-- os.path.getmtime, available exactly for existing files. -/
def World.getmtime (w : World) (p : String) : Option Int :=
  (w.localFiles.find? (fun q => q.1 == p)).map (fun q => q.2)

/-- Is p equal to or strictly below root in the remote path hierarchy. -/
def isUnder (root p : String) : Bool :=
  p == root || (root.data ++ ['/']).isPrefixOf p.data

def World.removeRemoteTree (w : World) (p : String) : World :=
  { w with remote := w.remote.filter (fun e => ! isUnder p e.path) }

def World.addEntry (w : World) (e : RemoteEntry) : World :=
  { w with remote := (w.remote.filter (fun q => ! (q.path == e.path))) ++ [e] }

def rerootPath (src dst p : String) : String := dst ++ p.drop src.length

/-- The server-side effect of a copy: the source subtree appears again
under the destination path. -/
def World.copyTree (w : World) (src dst : String) : World :=
  let moved := (w.remote.filter (fun e => isUnder src e.path)).map
    (fun e => { e with path := rerootPath src dst e.path })
  { w with remote := (w.remote.filter (fun q => ! isUnder dst q.path)) ++ moved }

/-- The parent a remote entry is listed under; root is the empty string. -/
def parentApi (p : String) : String :=
  let d := ospathDirname p
  if d == "/" then "" else d

/-- What the server answers to files_list_folder: an error unless the path
is the root "" or an existing folder; a recursive listing returns the
whole subtree, a plain one the direct children. -/
def listFolderResult (w : World) (path : String) (recursive : Bool) :
    Except Err (List RemoteEntry) :=
  if path == "" || (match w.findEntry path with
      | some e => e.isFolder
      | none => false) then
    .ok (if recursive then
          w.remote.filter (fun e => isUnder path e.path && ! (e.path == path))
        else w.remote.filter (fun e => parentApi e.path == path))
  else .error (.apiErr .notFound)

/-- The raw files_list_folder call of the SDK (pagination is transparent). -/
def filesListFolder (path : String) (recursive : Bool) : M (List RemoteEntry) :=
  M.bind (M.emit (.listFolder path)) (fun _ =>
  M.bind M.getW (fun w =>
    match listFolderResult w path recursive with
    | .ok entries => M.pure entries
    | .error e => M.throw e))

def entryToItem (e : RemoteEntry) : Item :=
  { name := ospathBasename e.path
    dir := ospathDirname e.path
    path := e.path
    type := if e.isFolder then "folder" else "file"
    size := if e.isFolder then none else some e.size
    modified := if e.isFolder then none else e.modified }

/-- DropboxClient.list_folder: fetch entries and build the item dicts
(size and modified only for files). -/
def client_list_folder (path : String) (recursive : Bool := false) : M (List Item) :=
  M.bind (filesListFolder path recursive) (fun entries =>
    M.pure (entries.map entryToItem))

/-- The metadata dict built by DropboxClient.get_metadata. -/
structure Meta where
  name : String
  path : String
  type : String
  size : Option Nat
  modified : Option PyVal
  deriving DecidableEq, Repr

/-- DropboxClient.get_metadata: files_get_metadata plus dict construction;
size and client_modified fall back to None via getattr. -/
def client_get_metadata (path : String) : M Meta :=
  M.bind (M.emit (.getMeta path)) (fun _ =>
  M.bind M.getW (fun w =>
    match w.findEntry path with
    | some e =>
      M.pure { name := ospathBasename e.path
               path := e.path
               type := if e.isFolder then "folder" else "file"
               size := if e.isFolder then none else some e.size
               modified := if e.isFolder then none else e.modified }
    | none => M.throw (.apiErr .notFound)))

/-- The raw files_copy_v2 call with autorename=False: a missing source is
a from-lookup error, an existing destination a to-conflict error. -/
def filesCopyV2 (src dst : String) : M Unit :=
  M.bind (M.emit (.apiCopy src dst)) (fun _ =>
  M.bind M.getW (fun w =>
    match w.findEntry src with
    | none => M.throw (.apiErr .fromNotFound)
    | some _ =>
      if (w.findEntry dst).isSome then M.throw (.apiErr .toConflict)
      else M.setW (w.copyTree src dst)))

/-- The raw files_move_v2 call. -/
def filesMoveV2 (src dst : String) : M Unit :=
  M.bind (M.emit (.apiMove src dst)) (fun _ =>
  M.bind M.getW (fun w =>
    match w.findEntry src with
    | none => M.throw (.apiErr .fromNotFound)
    | some _ =>
      if (w.findEntry dst).isSome then M.throw (.apiErr .toConflict)
      else M.setW ((w.copyTree src dst).removeRemoteTree src)))

/-- The raw files_delete_v2 call; folder deletion is recursive. -/
def filesDeleteV2 (path : String) : M Unit :=
  M.bind (M.emit (.apiDelete path)) (fun _ =>
  M.bind M.getW (fun w =>
    if (w.findEntry path).isSome then M.setW (w.removeRemoteTree path)
    else M.throw (.apiErr .notFound)))

/-- The except-ApiError clause of DropboxClient.copy_file: a from-lookup
error becomes FileNotFoundError, a to-conflict deletes the destination and
issues the raw copy again with no handler around the retry, and any other
error re-raises. -/
def copyErrHandler (src dst : String) (r : Except Err Unit) : M Unit :=
  match r with
  | .ok _ => M.pure ()
  | .error (.apiErr .fromNotFound) => M.throw (.fileNotFound src)
  | .error (.apiErr .toConflict) =>
    M.bind (filesDeleteV2 dst) (fun _ => filesCopyV2 src dst)
  | .error e => M.throw e

/-- DropboxClient.copy_file: the raw copy under a try whose except clause
is copyErrHandler. -/
def client_copy_file (src dst : String) : M Unit :=
  M.bind (M.attempt (filesCopyV2 src dst)) (copyErrHandler src dst)

/-- DropboxClient.move_file: the raw call, errors re-raised. -/
def client_move_file (src dst : String) : M Unit := filesMoveV2 src dst

/-- DropboxClient.delete_file: the raw call, errors re-raised. -/
def client_delete_file (path : String) : M Unit := filesDeleteV2 path

/-- DropboxClient.create_folder: the raw call, errors re-raised. -/
def client_create_folder (path : String) : M Unit :=
  M.bind (M.emit (.apiCreateFolder path)) (fun _ =>
  M.bind M.getW (fun w =>
    if (w.findEntry path).isSome then M.throw (.apiErr .toConflict)
    else M.setW (w.addEntry { path := path, isFolder := true, size := 0, modified := none })))

/-- DropboxClient.upload_file: open the local file (failing if missing),
then files_upload with overwrite mode. -/
def client_upload_file (localPath remotePath : String) : M Unit :=
  M.bind M.getW (fun w =>
    if w.isLocalFile localPath then
      M.bind (M.emit (.apiUpload localPath remotePath)) (fun _ =>
      M.bind M.getW (fun w2 =>
        M.setW (w2.addEntry
          { path := remotePath, isFolder := false, size := 0, modified := none })))
    else M.throw (.osErr localPath))

/-- DropboxClient.download_file: open(local, "wb") first (creating or
truncating the local file), then files_download. -/
def client_download_file (remotePath localPath : String) : M Unit :=
  M.bind M.getW (fun w =>
  M.bind (M.setW { w with localFiles :=
      (w.localFiles.filter (fun q => ! (q.1 == localPath))) ++ [(localPath, 0)] }) (fun _ =>
  M.bind (M.emit (.apiDownload remotePath localPath)) (fun _ =>
  M.bind M.getW (fun w2 =>
    match w2.findEntry remotePath with
    | some e => if e.isFolder then M.throw (.apiErr .notFound) else M.pure ()
    | none => M.throw (.apiErr .notFound)))))

/-- C6: when a remote copy hits a destination conflict (source present,
destination already present), copy_file deletes the destination and
retries the raw copy exactly once: the final outcome and any further
events are exactly those of that single retry, so a second failure
propagates fatally with no further delete-and-retry cycle. -/
theorem copy_file_conflict_retry (w : World) (src dst : String)
    (hsrc : (w.findEntry src).isSome = true)
    (hdst : (w.findEntry dst).isSome = true) :
    client_copy_file src dst w =
      ((filesCopyV2 src dst (w.removeRemoteTree dst)).1,
       .apiCopy src dst :: .apiDelete dst ::
         (filesCopyV2 src dst (w.removeRemoteTree dst)).2.1,
       (filesCopyV2 src dst (w.removeRemoteTree dst)).2.2) := by
  obtain ⟨e, he⟩ := Option.isSome_iff_exists.mp hsrc
  have h1 : filesCopyV2 src dst w = (w, [.apiCopy src dst], .error (.apiErr .toConflict)) := by
    simp [filesCopyV2, M.bind, M.emit, M.getW, M.throw, he, hdst]
  have h2 : filesDeleteV2 dst w = (w.removeRemoteTree dst, [.apiDelete dst], .ok ()) := by
    simp [filesDeleteV2, M.bind, M.emit, M.getW, M.setW, hdst]
  have h3 : M.attempt (filesCopyV2 src dst) w
      = (w, [.apiCopy src dst], .ok (.error (.apiErr .toConflict))) := by
    rw [M.attempt, h1]
  have h4 : copyErrHandler src dst (.error (.apiErr .toConflict))
      = M.bind (filesDeleteV2 dst) (fun _ => filesCopyV2 src dst) := rfl
  rw [client_copy_file, M.bind_eq_ok h3, h4, M.bind_eq_ok h2]
  simp

/-- C6 witness: a two-file world where the retry succeeds. -/
theorem copy_file_conflict_retry_witness :
    client_copy_file "/a" "/b"
        { cwd := "/h", remote := [
            { path := "/a", isFolder := false, size := 1, modified := none },
            { path := "/b", isFolder := false, size := 2, modified := none }],
          localFiles := [], localDirs := [] } =
      ((filesCopyV2 "/a" "/b"
          (World.removeRemoteTree
            { cwd := "/h", remote := [
                { path := "/a", isFolder := false, size := 1, modified := none },
                { path := "/b", isFolder := false, size := 2, modified := none }],
              localFiles := [], localDirs := [] } "/b")).1,
       .apiCopy "/a" "/b" :: .apiDelete "/b" ::
         (filesCopyV2 "/a" "/b"
          (World.removeRemoteTree
            { cwd := "/h", remote := [
                { path := "/a", isFolder := false, size := 1, modified := none },
                { path := "/b", isFolder := false, size := 2, modified := none }],
              localFiles := [], localDirs := [] } "/b")).2.1,
       (filesCopyV2 "/a" "/b"
          (World.removeRemoteTree
            { cwd := "/h", remote := [
                { path := "/a", isFolder := false, size := 1, modified := none },
                { path := "/b", isFolder := false, size := 2, modified := none }],
              localFiles := [], localDirs := [] } "/b")).2.2) :=
  copy_file_conflict_retry _ "/a" "/b" (by decide) (by decide)

/-- Does f hold of some suffix of the list (the list itself included). -/
def suffixAny (f : List Char → Bool) : List Char → Bool
  | [] => f []
  | c :: cs => f (c :: cs) || suffixAny f cs

/-- Shell-glob matching of a pattern against a name, the semantics of
fnmatch.fnmatch for the * and ? metacharacters (character classes do not
occur in the scenarios embedded here; a bracket is matched literally): a
star matches any run of characters, so the rest of the pattern may match
any suffix. -/
def globMatchL : List Char → List Char → Bool
  | [], cs => cs.isEmpty
  | '*' :: ps, cs => suffixAny (globMatchL ps) cs
  | '?' :: _, [] => false
  | '?' :: ps, _ :: cs => globMatchL ps cs
  | _ :: _, [] => false
  | p :: ps, c :: cs => (p == c) && globMatchL ps cs

def fnmatch (name mask : String) : Bool := globMatchL mask.toList name.toList

/-- CommandHandler._filter_remote_paths: a falsy mask filters nothing. -/
def filter_remote_paths (items : List Item) (mask : String) : List Item :=
  if mask = "" then items else items.filter (fun i => fnmatch i.name mask)

/-- What ls prints: the ordered flat listing, or the recursive tree of
file items grouped by parent directory. -/
inductive LsOut
  | flat (items : List Item)
  | tree (t : List (String × List Item))
  deriving DecidableEq, Repr

/-- CommandHandler._build_recursive_tree: a dict in insertion order from
parent directory ("/" for a falsy dir) to its file items. -/
def build_recursive_tree (items : List Item) : List (String × List Item) :=
  items.foldl
    (fun t item =>
      let dirPath := if item.dir == "" then "/" else item.dir
      let t2 := if t.any (fun kv => kv.1 == dirPath) then t else t ++ [(dirPath, [])]
      if item.type == "file" then
        t2.map (fun kv => if kv.1 == dirPath then (kv.1, kv.2 ++ [item]) else kv)
      else t2)
    []

/-- The non-recursive tail of ls_with_options: sort (which can raise on
mixed time keys), reverse last, and hand the items to the printer. -/
def ls_render_flat (sbs sbt rev : Bool) (items : List Item) : M LsOut :=
  match ls_order sbs sbt rev items with
  | .error e => M.throw e
  | .ok out => M.pure (.flat out)

/-- CommandHandler.ls_with_options: reject local paths, normalize, strip
the leading slash (root becomes ""), split a wildcard mask off the last
component, fetch, mask-filter, then render recursively or flat.  The
try/except around the body echoes and re-raises, so errors pass through
unchanged. -/
def ls_with_options (path : String)
    (long_format rev recursive sbs sbt : Bool) : M LsOut :=
  if is_remote_path path then
    let p1 := normalize_remote_path path
    let p2 := if p1 ≠ "" then (if p1 = "//" then "" else p1.drop 1) else p1
    let pm := if has_wildcards p2 then ospathSplit p2 else (p2, "")
    M.bind (client_list_folder pm.1 recursive) (fun items =>
      let items2 := filter_remote_paths items pm.2
      if recursive then M.pure (.tree (build_recursive_tree items2))
      else ls_render_flat sbs sbt rev items2)
  else M.throw (.clickErr "ls requires a remote path")

/-- The ls click command: the path argument defaults to "/". -/
def cli_ls (pathArg : Option String)
    (long_format rev recursive sbs sbt : Bool) : M LsOut :=
  ls_with_options (pathArg.getD "/") long_format rev recursive sbs sbt

/-- glob.glob on the modelled local filesystem: a wildcarded pattern is
matched against every recorded path; a literal pattern is returned as-is
exactly when something exists at it, else the result is empty. -/
def globLocal (w : World) (pat : String) : List String :=
  if has_wildcards pat then
    ((w.localFiles.map (fun q => q.1)) ++ w.localDirs).filter (fun p => fnmatch p pat)
  else if w.localExists pat then [pat] else []

/-- One iteration of CommandHandler._expand_source_wildcards: remote
wildcards list the base directory and mask-filter (errors wrapped in a
ValueError); remote literals pass through; local sources always go
through glob. -/
def expandOne (source : String) : M (List String) :=
  if is_remote_path source then
    if has_wildcards (normalize_remote_path source) then
      M.bind (M.attempt (
        M.bind (client_list_folder
            (ospathSplit ((normalize_remote_path source).drop 1)).1) (fun items =>
          M.pure ((filter_remote_paths items
              (ospathSplit ((normalize_remote_path source).drop 1)).2).map
            (fun item => normalize_remote_path item.path)))))
        (fun r =>
          match r with
          | .ok l => M.pure l
          | .error _ => M.throw (.valueErr ("Cannot expand wildcard " ++ source)))
    else M.pure [source]
  else
    M.bind M.getW (fun w => M.pure (globLocal w source))

def expand_source_wildcards (sources : List String) : M (List String) :=
  match sources with
  | [] => M.pure []
  | s :: rest =>
    M.bind (expandOne s) (fun l1 =>
    M.bind (expand_source_wildcards rest) (fun l2 => M.pure (l1 ++ l2)))

/-- C10: the ls command invoked with no path argument gets the click
default "/", which lacks the // marker, so the handler raises before any
gateway call (the trace is empty); listing the remote root needs an
explicit "//", which does reach the gateway with the root query. -/
theorem cli_ls_default_path_rejected (w : World)
    (long_format rev recursive sbs sbt : Bool) :
    cli_ls none long_format rev recursive sbs sbt w
        = (w, [], .error (.clickErr "ls requires a remote path")) ∧
    is_remote_path "/" = false ∧
    ls_with_options "//" false false false false false w
        = (w, [.listFolder ""],
           .ok (.flat (sort_by_name
             ((w.remote.filter (fun e => parentApi e.path == "")).map entryToItem)))) :=
  ⟨rfl, rfl, rfl⟩

/-- A remote folder /m holding one file with a datetime modified value and
one with a string modified value. -/
def mixedWorld : World :=
  { cwd := "/h"
    remote := [
      { path := "/m", isFolder := true, size := 0, modified := none },
      { path := "/m/a.txt", isFolder := false, size := 1, modified := some (.dt 100) },
      { path := "/m/b.txt", isFolder := false, size := 2, modified := some (.str "2023-01-01") }]
    localFiles := []
    localDirs := [] }

/-- C2: on a listing whose entries mix a structured time value with a
string, ls with sortByTime raises a TypeError instead of completing: the
sort key maps the datetime to a float and keeps the string, and the two
kinds are not comparable.  The claim (and the spec) say the heterogeneous
representations are normalized to a comparable form; the code comment
"handle both string and datetime" states the same intent. -/
theorem ls_time_sort_mixed_raises :
    ls_with_options "//m" false false false false true mixedWorld
        = (mixedWorld, [.listFolder "/m"], .error .typeErr) ∧
    (mixedWorld.findEntry "/m/a.txt").map (fun e => e.modified)
        = some (some (.dt 100)) ∧
    (mixedWorld.findEntry "/m/b.txt").map (fun e => e.modified)
        = some (some (.str "2023-01-01")) := by
  refine ⟨?_, rfl, rfl⟩
  rfl

def secretEntry : RemoteEntry :=
  { path := "/.secret", isFolder := false, size := 3, modified := none }

def visEntry : RemoteEntry :=
  { path := "/vis.txt", isFolder := false, size := 4, modified := none }

/-- A remote root holding a dot-named file and a plain file. -/
def hiddenWorld : World :=
  { cwd := "/h"
    remote := [secretEntry, visEntry]
    localFiles := []
    localDirs := [] }

/-- C4 counterexample: a non-recursive ls of the root without any hidden
flag (none exists) keeps the entry whose leaf name starts with ".": the
output lists .secret first, so dot entries are not filtered out. -/
theorem ls_keeps_hidden_counterexample :
    ls_with_options "//" false false false false false hiddenWorld
        = (hiddenWorld, [.listFolder ""],
           .ok (.flat [entryToItem secretEntry, entryToItem visEntry])) ∧
    (entryToItem secretEntry).name = ".secret" := by
  refine ⟨?_, rfl⟩
  rfl

/-- C4 (amended): non-recursive ls applies no hidden-name filtering at
all: whenever the render stage succeeds, its output is a permutation of
the fetched (mask-filtered) items, so every entry, dot-named or not, is in
the output; the implementation offers no showHidden option. -/
theorem ls_render_no_hidden_filter (sbs sbt rev : Bool)
    (items out : List Item) (w : World)
    (h : ls_render_flat sbs sbt rev items w = (w, [], .ok (.flat out))) :
    out.Perm items ∧ ∀ i ∈ items, i ∈ out := by
  rw [ls_render_flat] at h
  cases hord : ls_order sbs sbt rev items with
  | error e =>
    rw [hord] at h
    have h2 := congrArg (fun t => t.2.2) h
    simp only [M.throw] at h2
    cases h2
  | ok o =>
    rw [hord] at h
    have h2 := congrArg (fun t => t.2.2) h
    simp only [M.pure, Except.ok.injEq, LsOut.flat.injEq] at h2
    subst h2
    have hp := ls_order_perm sbs sbt rev items o hord
    exact ⟨hp, fun i hi => hp.mem_iff.mpr hi⟩

/-- C4 amended witness: the render stage on the hiddenWorld items keeps
the dot-named item. -/
theorem ls_render_no_hidden_filter_witness :
    ([entryToItem secretEntry, entryToItem visEntry].Perm
      [entryToItem secretEntry, entryToItem visEntry]) ∧
    ∀ i ∈ [entryToItem secretEntry, entryToItem visEntry],
      i ∈ [entryToItem secretEntry, entryToItem visEntry] :=
  ls_render_no_hidden_filter false false false _ _ hiddenWorld rfl

/-- An empty local filesystem. -/
def emptyWorld : World :=
  { cwd := "/h", remote := [], localFiles := [], localDirs := [] }

/-- C3 counterexample: a nonexistent local source without wildcards is
not passed through unchanged: glob.glob returns no match for it, so the
expansion drops it silently. -/
theorem expand_drops_missing_local_counterexample :
    expand_source_wildcards ["/nofile.txt"] emptyWorld
        = (emptyWorld, [], .ok []) ∧
    is_remote_path "/nofile.txt" = false ∧
    has_wildcards "/nofile.txt" = false := by
  refine ⟨?_, rfl, rfl⟩
  rfl

/-- C3 (amended): a local source without wildcards goes through glob like
every other local source, so it survives expansion unchanged exactly when
something exists at that path; a nonexistent one is silently dropped at
the expansion stage (the existence check happens here, not later), and no
gateway call is made for it. -/
theorem expand_local_nonwildcard (w : World) (src : String)
    (h1 : is_remote_path src = false) (h2 : has_wildcards src = false) :
    expand_source_wildcards [src] w
        = (w, [], .ok (if w.localExists src then [src] else [])) := by
  rw [expand_source_wildcards, expandOne]
  simp only [h1, Bool.false_eq_true, if_false]
  rw [expand_source_wildcards]
  simp only [M.bind, M.getW, M.pure, globLocal, h2, Bool.false_eq_true, if_false,
    List.append_nil]

/-- C3 amended witness: an existing local file passes through unchanged. -/
theorem expand_local_nonwildcard_witness :
    expand_source_wildcards ["/f.txt"]
        { cwd := "/h", remote := [], localFiles := [("/f.txt", 5)], localDirs := [] }
      = ({ cwd := "/h", remote := [], localFiles := [("/f.txt", 5)], localDirs := [] },
         [],
         .ok (if World.localExists
                { cwd := "/h", remote := [], localFiles := [("/f.txt", 5)], localDirs := [] }
                "/f.txt" then ["/f.txt"] else [])) :=
  expand_local_nonwildcard _ "/f.txt" rfl rfl

/-- commands.py _normalize_local_path: empty means the cwd, everything
else through os.path.abspath. -/
def normalize_local_path (cwd path : String) : String :=
  if path = "" then (normpathL cwd.toList).asString
  else posixAbspath cwd path

/-- A for-loop over a list whose body may raise; a raise aborts the rest,
as an uncaught exception does in Python. -/
def mFor {α : Type} (l : List α) (body : α → M Unit) : M Unit :=
  match l with
  | [] => M.pure ()
  | x :: xs => M.bind (body x) (fun _ => mFor xs body)

/-- CommandHandler._is_remote_directory: "/" and "//" are always
directories; otherwise a metadata lookup decides, and any error means
not-a-directory. -/
def is_remote_directory (path : String) : M Bool :=
  if path = "/" ∨ path = "//" then M.pure true
  else
    M.bind (M.attempt (client_get_metadata path)) (fun r =>
      match r with
      | .ok m => M.pure (m.type == "folder")
      | .error _ => M.pure false)

/-- Does the expanded source list mix remote and local domains. -/
def mixedSources (sources : List String) : Bool :=
  match sources with
  | [] => false
  | s0 :: rest => rest.any (fun s => ! (is_remote_path s == is_remote_path s0))

/-- CommandHandler._validate_source_consistency. -/
def validate_source_consistency (sources : List String) : M Unit :=
  if mixedSources sources then
    M.throw (.valueErr "cp: cannot mix remote and local source files")
  else M.pure ()

/-- CommandHandler._validate_destination_for_multiple_files: a remote
destination is checked with _is_remote_directory on its normalized form
minus the leading slash; a local one with os.path.isdir. -/
def validate_destination_for_multiple_files (destination : String) : M Unit :=
  if is_remote_path destination then
    M.bind (is_remote_directory ((normalize_remote_path destination).drop 1)) (fun b =>
      if b then M.pure ()
      else M.throw (.valueErr ("cp: target " ++ destination ++ " is not a directory")))
  else
    M.bind M.getW (fun w =>
      if w.isLocalDir (normalize_local_path w.cwd destination) then M.pure ()
      else M.throw (.valueErr ("cp: target " ++ destination ++ " is not a directory")))

/-- os.makedirs with exist_ok=True (parents elided in the model). -/
def os_makedirs (path : String) : M Unit :=
  M.bind (M.emit (.osMakedirs path)) (fun _ =>
  M.bind M.getW (fun w =>
    M.setW { w with localDirs :=
      if w.isLocalDir path then w.localDirs else w.localDirs ++ [path] }))

def rstripSlashes (s : String) : String :=
  (s.toList.reverse.dropWhile isSlash).reverse.asString

/-- os.path.relpath for a path strictly under base. -/
def relpathUnder (p base : String) : String := p.drop (base.length + 1)

/-- The per-item dispatch loop of the recursive directory walks: files
get one action, folders another (the recursive descent), anything else is
skipped; a raise aborts the remaining items. -/
def itemLoop (fileAct folderAct : Item → M Unit) : List Item → M Unit
  | [] => M.pure ()
  | item :: rest =>
    M.bind
      (if item.type == "file" then fileAct item
       else if item.type == "folder" then folderAct item
       else M.pure ())
      (fun _ => itemLoop fileAct folderAct rest)

/-- CommandHandler._download_directory_contents, bounded by fuel (the
Python recursion is unbounded). -/
def download_directory_contents : Nat → String → String → M Unit
  | 0, _, _ => M.throw .fuelOut
  | fuel + 1, remote_dir, local_dest =>
    M.bind (os_makedirs local_dest) (fun _ =>
    M.bind (client_list_folder remote_dir) (fun items =>
      itemLoop
        (fun item => client_download_file item.path (posixJoin local_dest item.name))
        (fun item => download_directory_contents fuel item.path
          (posixJoin local_dest item.name))
        items))

/-- CommandHandler._copy_directory_recursive_remote, bounded by fuel. -/
def copy_directory_recursive_remote : Nat → String → String → M Unit
  | 0, _, _ => M.throw .fuelOut
  | fuel + 1, remote_source, remote_dest =>
    M.bind (client_list_folder remote_source) (fun items =>
      itemLoop
        (fun item => client_copy_file item.path
          (rstripSlashes remote_dest ++ "/" ++ item.name))
        (fun item => copy_directory_recursive_remote fuel item.path
          (rstripSlashes remote_dest ++ "/" ++ item.name))
        items)

/-- CommandHandler._upload_directory_recursive: root remote_base under a
leading slash plus the source directory leaf, create the remote
directories that do not exist, then upload every file preserving its
relative path (the os.walk traversal linearized as directories first,
then files, in recorded order). -/
def upload_directory_recursive (local_dir remote_base : String) : M Unit :=
  let rb0 := if remote_base.startsWith "/" then remote_base else "/" ++ remote_base
  let rb := posixJoin rb0 (ospathBasename ((normpathL local_dir.toList).asString))
  M.bind (is_remote_directory rb) (fun b =>
  M.bind (if b then M.pure () else client_create_folder rb) (fun _ =>
  M.bind M.getW (fun w =>
    let subdirs := w.localDirs.filter
      (fun d => isUnder local_dir d && ! (d == local_dir))
    let files := w.localFiles.filter (fun q => isUnder local_dir q.1)
    M.bind (mFor subdirs (fun d =>
      let rsub := posixJoin rb (relpathUnder d local_dir)
      M.bind (is_remote_directory rsub) (fun bb =>
        if bb then M.pure () else client_create_folder rsub)))
      (fun _ => mFor files (fun q =>
        client_upload_file q.1 (posixJoin rb (relpathUnder q.1 local_dir)))))))

/-- CommandHandler._copy_local_to_remote. -/
def copy_local_to_remote (source destination : String)
    (recursive treat : Bool) : M Unit :=
  M.bind M.getW (fun w =>
    if w.isLocalFile source then
      if treat then client_upload_file source destination
      else
        M.bind (is_remote_directory destination) (fun isdir =>
          if isdir then
            client_upload_file source (posixJoin destination (ospathBasename source))
          else client_upload_file source destination)
    else if w.isLocalDir source then
      if recursive then upload_directory_recursive source destination
      else M.throw (.valueErr (source ++ " is a directory, use -r for recursive copy"))
    else M.throw (.valueErr (source ++ ": No such file or directory")))

/-- The try-body of CommandHandler._copy_remote_to_local. -/
def copy_remote_to_local_inner (fuel : Nat) (source destination : String)
    (recursive treat : Bool) : M Unit :=
  M.bind (client_get_metadata source) (fun m =>
    if m.type == "file" then
      if treat then client_download_file source destination
      else
        M.bind M.getW (fun w =>
          if w.isLocalDir destination then
            client_download_file source (posixJoin destination (ospathBasename source))
          else client_download_file source destination)
    else if m.type == "folder" then
      if recursive then
        M.bind M.getW (fun w =>
          let actual := if w.localExists destination
            then posixJoin destination (ospathBasename (rstripSlashes source))
            else destination
          download_directory_contents fuel source actual)
      else M.throw (.valueErr (source ++ " is a directory, use -r for recursive copy"))
    else M.throw (.valueErr (source ++ ": Unknown file type")))

/-- CommandHandler._copy_remote_to_local: the whole body sits in a
try/except Exception that replaces any error with "No such file or
directory" for the source. -/
def copy_remote_to_local (fuel : Nat) (source destination : String)
    (recursive treat : Bool) : M Unit :=
  M.bind (M.attempt (copy_remote_to_local_inner fuel source destination recursive treat))
    (fun r =>
      match r with
      | .ok _ => M.pure ()
      | .error _ => M.throw (.valueErr (source ++ ": No such file or directory")))

/-- The try-body of CommandHandler._copy_remote_to_remote. -/
def copy_remote_to_remote_inner (fuel : Nat) (source destination : String)
    (recursive treat : Bool) : M Unit :=
  M.bind (client_get_metadata source) (fun m =>
    if m.type == "file" then
      if treat then client_copy_file source destination
      else
        M.bind (is_remote_directory destination) (fun isdir =>
          if isdir then
            client_copy_file source (posixJoin destination (ospathBasename source))
          else client_copy_file source destination)
    else if m.type == "folder" then
      if recursive then copy_directory_recursive_remote fuel source destination
      else M.throw (.valueErr (source ++ " is a directory, use -r for recursive copy"))
    else M.throw (.valueErr (source ++ ": Unknown file type")))

/-- CommandHandler._copy_remote_to_remote, with the same catch-all
rephrasing as the remote-to-local case. -/
def copy_remote_to_remote (fuel : Nat) (source destination : String)
    (recursive treat : Bool) : M Unit :=
  M.bind (M.attempt (copy_remote_to_remote_inner fuel source destination recursive treat))
    (fun r =>
      match r with
      | .ok _ => M.pure ()
      | .error _ => M.throw (.valueErr (source ++ ": No such file or directory")))

/-- CommandHandler._copy_file_or_folder: normalize both operands by
domain, then dispatch on the four pairings; local to local always fails. -/
def copy_file_or_folder (fuel : Nat) (source destination : String)
    (recursive treat : Bool) : M Unit :=
  M.bind M.getW (fun w0 =>
    let source_is_remote := is_remote_path source
    let dest_is_remote := is_remote_path destination
    let source_path :=
      if source_is_remote then
        (if normalize_remote_path source ≠ "" then (normalize_remote_path source).drop 1
         else normalize_remote_path source)
      else normalize_local_path w0.cwd source
    let dest_path :=
      if dest_is_remote then
        (if normalize_remote_path destination ≠ "" then (normalize_remote_path destination).drop 1
         else normalize_remote_path destination)
      else normalize_local_path w0.cwd destination
    if source_is_remote && dest_is_remote then
      copy_remote_to_remote fuel source_path dest_path recursive treat
    else if source_is_remote && ! dest_is_remote then
      copy_remote_to_local fuel source_path dest_path recursive treat
    else if ! source_is_remote && dest_is_remote then
      copy_local_to_remote source_path dest_path recursive treat
    else
      M.throw (.valueErr
        "drobo cp is not used for copying local files to local destinations"))

/-- The argument-shape selection of cp_with_options: -t keeps all sources,
-T requires exactly two arguments, otherwise the last argument is popped
as the destination. -/
def cpFormSelect (sources : List String) (treat : Bool) (tdir : Option String) :
    Except Err (List String × String) :=
  match tdir with
  | some td => .ok (sources, td)
  | none =>
    if treat then
      if sources.length ≠ 2 then
        .error (.clickErr "cp: -T requires exactly one source and one destination")
      else .ok (sources.dropLast, (sources.getLast?).getD "")
    else
      if sources.length < 2 then
        .error (.clickErr "cp requires source and destination")
      else .ok (sources.dropLast, (sources.getLast?).getD "")

/-- The copy loop of cp_with_options: the except clause echoes and
re-raises, so the first failure aborts the remaining sources. -/
def cpLoop (fuel : Nat) (sources : List String) (destination : String)
    (recursive treat : Bool) : M Unit :=
  match sources with
  | [] => M.pure ()
  | s :: rest =>
    M.bind (copy_file_or_folder fuel s destination recursive treat)
      (fun _ => cpLoop fuel rest destination recursive treat)

/-- The body of cp_with_options after the argument shape is fixed:
expansion, the no-match and mixed-domain gates, the multi-source
directory validation (skipped in treat-as-file mode), then the loop. -/
def cpBody (fuel : Nat) (srcOps : List String) (destination : String)
    (recursive treat : Bool) : M Unit :=
  M.bind (expand_source_wildcards srcOps) (fun expanded =>
    if expanded = [] then M.throw (.clickErr "cp: no files matched")
    else
      M.bind (validate_source_consistency expanded) (fun _ =>
      M.bind (if 1 < expanded.length ∧ treat = false then
                validate_destination_for_multiple_files destination
              else M.pure ()) (fun _ =>
        cpLoop fuel expanded destination recursive treat)))

def cpAfterForm (fuel : Nat) (fd : Except Err (List String × String))
    (recursive treat : Bool) : M Unit :=
  match fd with
  | .error e => M.throw e
  | .ok (srcOps, destination) => cpBody fuel srcOps destination recursive treat

/-- CommandHandler.cp_with_options. -/
def cp_with_options (fuel : Nat) (sources : List String)
    (recursive treat : Bool) (tdir : Option String) : M Unit :=
  if sources = [] then M.throw (.clickErr "cp requires source files")
  else cpAfterForm fuel (cpFormSelect sources treat tdir) recursive treat

/-- The hasattr(x, "timestamp") conversion in _move_file: a datetime
becomes its timestamp float, anything else is left alone. -/
def pyTimestamp : PyVal → PyVal
  | .dt t => .fl t
  | v => v

/-- The update comparison of _move_file (lines 358-368): only when both
modification times are Python-truthy are datetimes converted to
timestamps and compared, and the move is skipped when the source is not
strictly newer; otherwise the move goes ahead. -/
def updateSkip (source_mtime dest_mtime : Option PyVal) : M Bool :=
  if truthy source_mtime && truthy dest_mtime then
    match pyLe (pyTimestamp (source_mtime.getD (.fl 0)))
               (pyTimestamp (dest_mtime.getD (.fl 0))) with
    | .error e => M.throw e
    | .ok true => M.pure true
    | .ok false => M.pure false
  else M.pure false

/-- CommandHandler._move_file: normalize both operands, redirect into an
existing destination directory, probe destination existence and mtime,
apply the force/update rules, then dispatch the move by domain pairing. -/
def move_file (source destination : String) (force update : Bool) : M Unit :=
  M.bind M.getW (fun w0 =>
  let source_is_remote := is_remote_path source
  let dest_is_remote := is_remote_path destination
  let source_path :=
    if source_is_remote then
      (if normalize_remote_path source ≠ "" then (normalize_remote_path source).drop 1
       else normalize_remote_path source)
    else normalize_local_path w0.cwd source
  let dest_path0 :=
    if dest_is_remote then
      (if normalize_remote_path destination ≠ "" then (normalize_remote_path destination).drop 1
       else normalize_remote_path destination)
    else normalize_local_path w0.cwd destination
  M.bind
    (if source_is_remote && dest_is_remote then
      M.bind (is_remote_directory dest_path0) (fun b =>
        M.pure (if b then posixJoin dest_path0 (ospathBasename source_path) else dest_path0))
    else if dest_is_remote then
      M.bind (is_remote_directory dest_path0) (fun b =>
        M.pure (if b then posixJoin dest_path0 (ospathBasename source_path) else dest_path0))
    else
      M.bind M.getW (fun w =>
        M.pure (if w.isLocalDir dest_path0
          then posixJoin dest_path0 (ospathBasename source_path) else dest_path0)))
    (fun dest_path =>
  M.bind
    (if source_is_remote && dest_is_remote then
      M.bind (M.attempt (client_get_metadata dest_path)) (fun r =>
        match r with
        | .ok m => M.pure (true, m.modified)
        | .error _ => M.pure (false, none))
    else if ! dest_is_remote then
      M.bind M.getW (fun w =>
        if w.localExists dest_path then
          M.pure (true, (w.getmtime dest_path).map PyVal.fl)
        else M.pure (false, none))
    else
      M.bind (M.attempt (client_get_metadata dest_path)) (fun r =>
        match r with
        | .ok m => M.pure (true, m.modified)
        | .error _ => M.pure (false, none)))
    (fun de =>
  M.bind
    (if de.1 then
      if force = false ∧ update = false then
        M.throw (.valueErr ("cannot move " ++ source ++ " to " ++ destination
          ++ ": destination file exists"))
      else if update then
        M.bind
          (if source_is_remote then
            M.bind (M.attempt (client_get_metadata source_path)) (fun r =>
              match r with
              | .ok m => M.pure m.modified
              | .error _ => M.pure none)
          else
            M.bind M.getW (fun w =>
              if w.localExists source_path then
                M.pure ((w.getmtime source_path).map PyVal.fl)
              else M.pure none))
          (fun source_mtime => updateSkip source_mtime de.2)
      else M.pure false
    else M.pure false)
    (fun skip =>
  if skip then M.pure ()
  else
    if source_is_remote && dest_is_remote then
      client_move_file source_path dest_path
    else if ! source_is_remote && dest_is_remote then
      M.bind (client_upload_file source_path dest_path) (fun _ =>
      M.bind (M.emit (.osRemove source_path)) (fun _ =>
      M.bind M.getW (fun w =>
        M.setW { w with localFiles :=
          w.localFiles.filter (fun q => ! (q.1 == source_path)) })))
    else if source_is_remote && ! dest_is_remote then
      M.bind (client_download_file source_path dest_path) (fun _ =>
        client_delete_file source_path)
    else
      M.throw (.valueErr
        "drobo mv is not used for moving local files to local destinations")))))

/-- The move loop of mv_with_options: the except clause echoes and
re-raises, so the first failure aborts the remaining sources. -/
def mvLoop (sources : List String) (destination : String)
    (force update : Bool) : M Unit :=
  match sources with
  | [] => M.pure ()
  | s :: rest =>
    M.bind (move_file s destination force update)
      (fun _ => mvLoop rest destination force update)

/-- The argument-shape selection of mv_with_options. -/
def mvFormSelect (sources : List String) (tdir : Option String) :
    Except Err (List String × String) :=
  match tdir with
  | some td => .ok (sources, td)
  | none =>
    if sources.length < 2 then
      .error (.clickErr "mv requires source and destination")
    else .ok (sources.dropLast, (sources.getLast?).getD "")

/-- CommandHandler.mv_with_options. -/
def mv_with_options (sources : List String) (force update : Bool)
    (tdir : Option String) : M Unit :=
  if sources = [] then M.throw (.clickErr "mv requires source files")
  else
    match mvFormSelect sources tdir with
    | .error e => M.throw e
    | .ok (srcOps, destination) =>
      M.bind (expand_source_wildcards srcOps) (fun expanded =>
        if expanded = [] then M.throw (.clickErr "mv: no files matched")
        else
          M.bind (validate_source_consistency expanded) (fun _ =>
          M.bind (if 1 < expanded.length then
                    validate_destination_for_multiple_files destination
                  else M.pure ()) (fun _ =>
            mvLoop expanded destination force update)))

/-- CommandHandler._remove_file_or_folder: metadata probe, the
directory-needs-recursive gate, delete, and the not-found rephrasing. -/
def remove_file_or_folder (source : String) (recursive : Bool) : M Unit :=
  let sp := normalize_remote_path source
  let source_path := if sp ≠ "" then sp.drop 1 else sp
  M.bind (M.attempt (
    M.bind (client_get_metadata source_path) (fun m =>
      if m.type == "folder" then
        if recursive then client_delete_file source_path
        else M.throw (.valueErr ("cannot remove " ++ source
          ++ ": Is a directory, use -r for recursive removal"))
      else client_delete_file source_path)))
    (fun r =>
      match r with
      | .ok _ => M.pure ()
      | .error (.apiErr .notFound) =>
        M.throw (.valueErr ("cannot remove " ++ source ++ ": No such file or directory"))
      | .error e => M.throw e)

/-- The remove loop of rm_with_options: force converts a per-source
failure into a skip; without force the first failure aborts the batch. -/
def rmLoop (sources : List String) (force recursive : Bool) : M Unit :=
  match sources with
  | [] => M.pure ()
  | s :: rest =>
    M.bind
      (M.bind (M.attempt (remove_file_or_folder s recursive)) (fun r =>
        match r with
        | .ok _ => M.pure ()
        | .error e => if force then M.pure () else M.throw e))
      (fun _ => rmLoop rest force recursive)

/-- CommandHandler.rm_with_options. -/
def rm_with_options (sources : List String) (force recursive : Bool) : M Unit :=
  if sources = [] then M.throw (.clickErr "rm requires at least one file")
  else
    M.bind (expand_source_wildcards sources) (fun expanded =>
      if expanded = [] then
        (if force then M.pure () else M.throw (.clickErr "rm: no files matched"))
      else
        if expanded.all (fun s => is_remote_path s) then
          rmLoop expanded force recursive
        else M.throw (.clickErr "rm requires remote paths"))

/-- Events that begin a transfer (a copy, move, upload or download call). -/
def Ev.isTransferEv : Ev → Bool
  | .apiCopy _ _ => true
  | .apiMove _ _ => true
  | .apiUpload _ _ => true
  | .apiDownload _ _ => true
  | _ => false

/-- A remote world with directory /d and colliding files for both mv
sources. -/
def mvWorld : World :=
  { cwd := "/h", remote := [
      { path := "/d", isFolder := true, size := 0, modified := none },
      { path := "/a.txt", isFolder := false, size := 1, modified := none },
      { path := "/b.txt", isFolder := false, size := 1, modified := none },
      { path := "/d/a.txt", isFolder := false, size := 1, modified := none },
      { path := "/d/b.txt", isFolder := false, size := 1, modified := none }],
    localFiles := [], localDirs := [] }

/-- C1 counterexample: mv of two sources into //d without force or update,
where both destinations exist.  The first source fails with "destination
file exists" and the whole invocation stops: the trace holds no lookup of
the second destination /d/b.txt and no move at all, so the remaining
source is not attempted. -/
theorem mv_dest_exists_aborts_batch_counterexample :
    mv_with_options ["//a.txt", "//b.txt"] false false (some "//d") mvWorld
      = (mvWorld, [.getMeta "/d", .getMeta "/d", .getMeta "/d/a.txt"],
         .error (.valueErr "cannot move //a.txt to //d: destination file exists")) ∧
    Ev.getMeta "/d/b.txt"
      ∉ ([.getMeta "/d", .getMeta "/d", .getMeta "/d/a.txt"] : List Ev) ∧
    ([.getMeta "/d", .getMeta "/d", .getMeta "/d/a.txt"] : List Ev).all
      (fun ev => ! ev.isTransferEv) = true := by
  refine ⟨rfl, by decide, by decide⟩

/-- C1 (amended): an error raised by _move_file for one source is re-raised
by the loop, so the invocation ends with exactly that error and exactly
that trace: the remaining sources contribute nothing and are never
attempted. -/
theorem mv_failure_aborts_batch (s : String) (rest : List String) (dest : String)
    (force update : Bool) (w w2 : World) (tr : List Ev) (e : Err)
    (h : move_file s dest force update w = (w2, tr, .error e)) :
    mvLoop (s :: rest) dest force update w = (w2, tr, .error e) := by
  show M.bind (move_file s dest force update)
      (fun _ => mvLoop rest dest force update) w = (w2, tr, .error e)
  rw [M.bind_eq_error h]

/-- C1 amended witness: in mvWorld the loop over both sources produces
only the first source's trace and its error. -/
theorem mv_failure_aborts_batch_witness :
    mvLoop ["//a.txt", "//b.txt"] "//d" false false mvWorld
      = (mvWorld, [.getMeta "/d", .getMeta "/d/a.txt"],
         .error (.valueErr "cannot move //a.txt to //d: destination file exists")) :=
  mv_failure_aborts_batch "//a.txt" ["//b.txt"] "//d" false false mvWorld
    mvWorld [.getMeta "/d", .getMeta "/d/a.txt"]
    (.valueErr "cannot move //a.txt to //d: destination file exists") rfl

/-- A local source whose mtime is the epoch (0.0, falsy in Python) and a
remote destination with a truthy datetime mtime. -/
def mvUpdWorld : World :=
  { cwd := "/h",
    remote := [{ path := "/d.txt", isFolder := false, size := 1, modified := some (.dt 100) }],
    localFiles := [("/s.txt", 0)], localDirs := [] }

/-- C7 counterexample: mv -u where both modification times are available,
source mtime 0 and destination mtime 100, so the claim demands a skip
(0 <= 100); but 0.0 is falsy, the truthiness guard bypasses the
comparison, and the move is performed (upload plus local remove). -/
theorem mv_update_zero_mtime_counterexample :
    runRes (mv_with_options ["/s.txt", "//d.txt"] false true none) mvUpdWorld = .ok () ∧
    (runTrace (mv_with_options ["/s.txt", "//d.txt"] false true none) mvUpdWorld).any
      (fun ev => ev.isTransferEv) = true ∧
    mvUpdWorld.getmtime "/s.txt" = some 0 ∧
    (mvUpdWorld.findEntry "/d.txt").map (fun e => e.modified) = some (some (.dt 100)) ∧
    ((0 : Int) ≤ 100) := by
  refine ⟨rfl, rfl, rfl, rfl, by norm_num⟩

/-- A remote source and an existing remote destination with datetime
modification times ts and td. -/
def mvUpdRR (ts td : Int) : World :=
  { cwd := "/h", remote := [
      { path := "/s.txt", isFolder := false, size := 1, modified := some (.dt ts) },
      { path := "/d.txt", isFolder := false, size := 1, modified := some (.dt td) }],
    localFiles := [], localDirs := [] }

/-- C7 (amended): with update set and the destination existing, the skip
decision compares timestamps only when both modification times are
Python-truthy: for datetimes the move is skipped exactly when
source <= dest (equal skips, by non-strict inequality); for float mtimes
an available-but-zero value disables the comparison and the move goes
ahead; and _move_file wires this decision through end to end: a true
decision returns without any transfer call, a false one issues the move. -/
theorem mv_update_skip_rule :
    (∀ (ts td : Int) (w : World),
      updateSkip (some (.dt ts)) (some (.dt td)) w = (w, [], .ok (decide (ts ≤ td)))) ∧
    (∀ (ts td : Int) (w : World),
      updateSkip (some (.fl ts)) (some (.fl td)) w
        = (w, [], .ok (if ts = 0 ∨ td = 0 then false else decide (ts ≤ td)))) ∧
    (∀ b : Bool,
      move_file "//s.txt" "//d.txt" false true (mvUpdRR (if b then 0 else 1) 0)
        = (if b then
            (mvUpdRR 0 0,
             [.getMeta "/d.txt", .getMeta "/d.txt", .getMeta "/s.txt"], .ok ())
           else
            (mvUpdRR 1 0,
             [.getMeta "/d.txt", .getMeta "/d.txt", .getMeta "/s.txt",
              .apiMove "/s.txt" "/d.txt"],
             .error (.apiErr .toConflict)))) := by
  refine ⟨?_, ?_, ?_⟩
  · intro ts td w
    cases hd : decide (ts ≤ td) with
    | false => simp [updateSkip, truthy, pyTimestamp, pyLe, hd, M.pure]
    | true => simp [updateSkip, truthy, pyTimestamp, pyLe, hd, M.pure]
  · intro ts td w
    by_cases hs : ts = 0
    · simp [updateSkip, truthy, hs, M.pure]
    · by_cases hdz : td = 0
      · simp [updateSkip, truthy, hs, hdz, M.pure]
      · cases hd : decide (ts ≤ td) with
        | false => simp [updateSkip, truthy, pyTimestamp, pyLe, hs, hdz, hd, M.pure]
        | true => simp [updateSkip, truthy, pyTimestamp, pyLe, hs, hdz, hd, M.pure]
  · intro b
    cases b with
    | false => rfl
    | true => rfl

/-- The pure content of a metadata lookup. -/
def metaResult (w : World) (p : String) : Except Err Meta :=
  match w.findEntry p with
  | some e => .ok { name := ospathBasename e.path
                    path := e.path
                    type := if e.isFolder then "folder" else "file"
                    size := if e.isFolder then none else some e.size
                    modified := if e.isFolder then none else e.modified }
  | none => .error (.apiErr .notFound)

/-- The pure content of _is_remote_directory. -/
def remoteDirCheck (w : World) (p : String) : Bool :=
  if p = "/" ∨ p = "//" then true
  else match w.findEntry p with
    | some e => e.isFolder
    | none => false

/-- Does the destination resolve to an existing directory, exactly as
_validate_destination_for_multiple_files checks it. -/
def destDirCheck (w : World) (dest : String) : Bool :=
  if is_remote_path dest then
    remoteDirCheck w ((normalize_remote_path dest).drop 1)
  else w.isLocalDir (normalize_local_path w.cwd dest)

theorem typeFolderBeq (b : Bool) :
    ((if b then "folder" else "file") == "folder") = b := by
  cases b <;> rfl

theorem client_get_metadata_spec (p : String) (w : World) :
    client_get_metadata p w = (w, [.getMeta p], metaResult w p) := by
  cases h : w.findEntry p with
  | some e =>
    simp [client_get_metadata, M.bind, M.emit, M.getW, M.pure, metaResult, h]
  | none =>
    simp [client_get_metadata, M.bind, M.emit, M.getW, M.throw, metaResult, h]

theorem is_remote_directory_spec (p : String) (w : World) :
    is_remote_directory p w
      = (w, if p = "/" ∨ p = "//" then [] else [.getMeta p],
         .ok (remoteDirCheck w p)) := by
  by_cases hr : p = "/" ∨ p = "//"
  · simp [is_remote_directory, remoteDirCheck, hr, M.pure]
  · rw [is_remote_directory, if_neg hr]
    have h3 : M.attempt (client_get_metadata p) w
        = (w, [.getMeta p], .ok (metaResult w p)) := by
      rw [M.attempt, client_get_metadata_spec]
    rw [M.bind_eq_ok h3]
    cases hm : w.findEntry p with
    | some e =>
      simp [metaResult, hm, M.pure, remoteDirCheck, hr, typeFolderBeq]
    | none =>
      simp [metaResult, hm, M.pure, remoteDirCheck, hr]

theorem validate_destination_spec (dest : String) (w : World) :
    ∃ tr, validate_destination_for_multiple_files dest w
        = (w, tr,
           if destDirCheck w dest then .ok ()
           else .error (.valueErr ("cp: target " ++ dest ++ " is not a directory")))
      ∧ ∀ ev ∈ tr, ∃ q, ev = Ev.getMeta q := by
  by_cases hrem : is_remote_path dest = true
  · refine ⟨if (normalize_remote_path dest).drop 1 = "/"
        ∨ (normalize_remote_path dest).drop 1 = "//" then []
      else [.getMeta ((normalize_remote_path dest).drop 1)], ?_, ?_⟩
    · rw [validate_destination_for_multiple_files, if_pos hrem,
        M.bind_eq_ok (is_remote_directory_spec ((normalize_remote_path dest).drop 1) w)]
      rw [destDirCheck, if_pos hrem]
      cases hb : remoteDirCheck w ((normalize_remote_path dest).drop 1) with
      | true => simp [M.pure]
      | false => simp [M.throw]
    · by_cases hroot : (normalize_remote_path dest).drop 1 = "/"
          ∨ (normalize_remote_path dest).drop 1 = "//"
      · simp [hroot]
      · simp only [hroot, if_false, List.mem_singleton]
        intro ev hev
        exact ⟨_, hev⟩
  · refine ⟨[], ?_, by simp⟩
    rw [validate_destination_for_multiple_files, if_neg hrem]
    rw [destDirCheck, if_neg hrem]
    cases hb : w.isLocalDir (normalize_local_path w.cwd dest) with
    | true => simp [M.bind, M.getW, M.pure, hb]
    | false => simp [M.bind, M.getW, M.throw, hb]

theorem filesListFolder_spec (p : String) (rec : Bool) (w : World) :
    filesListFolder p rec w = (w, [.listFolder p], listFolderResult w p rec) := by
  cases h : listFolderResult w p rec with
  | ok es => simp [filesListFolder, M.bind, M.emit, M.getW, M.pure, h]
  | error e => simp [filesListFolder, M.bind, M.emit, M.getW, M.throw, h]

theorem client_list_folder_spec (p : String) (rec : Bool) (w : World) :
    client_list_folder p rec w
      = (w, [.listFolder p],
         (listFolderResult w p rec).map (fun es => es.map entryToItem)) := by
  cases h : listFolderResult w p rec with
  | ok es =>
    have h1 : filesListFolder p rec w = (w, [.listFolder p], .ok es) := by
      rw [filesListFolder_spec, h]
    rw [client_list_folder, M.bind_eq_ok h1]
    simp [M.pure, h, Except.map]
  | error e =>
    have h1 : filesListFolder p rec w = (w, [.listFolder p], .error e) := by
      rw [filesListFolder_spec, h]
    rw [client_list_folder, M.bind_eq_error h1]
    simp [h, Except.map]

theorem expandOne_spec (s : String) (w : World) :
    ∃ tr r, expandOne s w = (w, tr, r) ∧ ∀ ev ∈ tr, ∃ p, ev = Ev.listFolder p := by
  by_cases hrem : is_remote_path s = true
  · rw [expandOne, if_pos hrem]
    by_cases hw : has_wildcards (normalize_remote_path s) = true
    · rw [if_pos hw]
      cases hr : listFolderResult w (ospathSplit ((normalize_remote_path s).drop 1)).1 false with
      | ok es =>
        have h1 : client_list_folder (ospathSplit ((normalize_remote_path s).drop 1)).1 false w
            = (w, [.listFolder (ospathSplit ((normalize_remote_path s).drop 1)).1],
               .ok (es.map entryToItem)) := by
          rw [client_list_folder_spec, hr]
          rfl
        refine ⟨[.listFolder (ospathSplit ((normalize_remote_path s).drop 1)).1],
          .ok ((filter_remote_paths (es.map entryToItem)
              (ospathSplit ((normalize_remote_path s).drop 1)).2).map
            (fun item => normalize_remote_path item.path)), ?_, ?_⟩
        · have h2 : M.attempt (M.bind
              (client_list_folder (ospathSplit ((normalize_remote_path s).drop 1)).1)
              (fun items => M.pure ((filter_remote_paths items
                  (ospathSplit ((normalize_remote_path s).drop 1)).2).map
                (fun item => normalize_remote_path item.path)))) w
              = (w, [.listFolder (ospathSplit ((normalize_remote_path s).drop 1)).1],
                 .ok (.ok (((filter_remote_paths (es.map entryToItem)
                    (ospathSplit ((normalize_remote_path s).drop 1)).2).map
                  (fun item => normalize_remote_path item.path))))) := by
            rw [M.attempt, M.bind_eq_ok h1]
            simp [M.pure]
          rw [M.bind_eq_ok h2]
          simp [M.pure]
        · simp
      | error e =>
        have h1 : client_list_folder (ospathSplit ((normalize_remote_path s).drop 1)).1 false w
            = (w, [.listFolder (ospathSplit ((normalize_remote_path s).drop 1)).1],
               .error e) := by
          rw [client_list_folder_spec, hr]
          rfl
        refine ⟨[.listFolder (ospathSplit ((normalize_remote_path s).drop 1)).1],
          .error (.valueErr ("Cannot expand wildcard " ++ s)), ?_, ?_⟩
        · have h2 : M.attempt (M.bind
              (client_list_folder (ospathSplit ((normalize_remote_path s).drop 1)).1)
              (fun items => M.pure ((filter_remote_paths items
                  (ospathSplit ((normalize_remote_path s).drop 1)).2).map
                (fun item => normalize_remote_path item.path)))) w
              = (w, [.listFolder (ospathSplit ((normalize_remote_path s).drop 1)).1],
                 .ok (.error e)) := by
            rw [M.attempt, M.bind_eq_error h1]
          rw [M.bind_eq_ok h2]
          simp [M.throw]
        · simp
    · rw [if_neg hw]
      exact ⟨[], .ok [s], by simp [M.pure], by simp⟩
  · rw [expandOne, if_neg hrem]
    exact ⟨[], .ok (globLocal w s), by simp [M.bind, M.getW, M.pure], by simp⟩

theorem expand_source_wildcards_spec : ∀ (srcs : List String) (w : World),
    ∃ tr r, expand_source_wildcards srcs w = (w, tr, r)
      ∧ ∀ ev ∈ tr, ∃ p, ev = Ev.listFolder p := by
  intro srcs
  induction srcs with
  | nil => intro w; exact ⟨[], .ok [], by simp [expand_source_wildcards, M.pure], by simp⟩
  | cons s rest ih =>
    intro w
    obtain ⟨tr1, r1, h1, he1⟩ := expandOne_spec s w
    cases r1 with
    | error e =>
      refine ⟨tr1, .error e, ?_, he1⟩
      show M.bind (expandOne s) _ w = _
      rw [M.bind_eq_error h1]
    | ok l1 =>
      obtain ⟨tr2, r2, h2, he2⟩ := ih w
      cases r2 with
      | error e =>
        refine ⟨tr1 ++ tr2, .error e, ?_, ?_⟩
        · show M.bind (expandOne s) _ w = _
          rw [M.bind_eq_ok h1]
          have h3 : M.bind (expand_source_wildcards rest)
              (fun l2 => M.pure (l1 ++ l2)) w = (w, tr2, .error e) := by
            rw [M.bind_eq_error h2]
          rw [h3]
        · intro ev hev
          rcases List.mem_append.mp hev with h | h
          · exact he1 ev h
          · exact he2 ev h
      | ok l2 =>
        refine ⟨tr1 ++ tr2, .ok (l1 ++ l2), ?_, ?_⟩
        · show M.bind (expandOne s) _ w = _
          rw [M.bind_eq_ok h1]
          have h3 : M.bind (expand_source_wildcards rest)
              (fun l2 => M.pure (l1 ++ l2)) w = (w, tr2, .ok (l1 ++ l2)) := by
            rw [M.bind_eq_ok h2]
            simp [M.pure]
          rw [h3]
        · intro ev hev
          rcases List.mem_append.mp hev with h | h
          · exact he1 ev h
          · exact he2 ev h

/-- C5 (amended): for a cp invocation that is not in treat-as-file mode,
whose expanded source list has two or more domain-consistent entries and
whose destination does not resolve to an existing directory (remote or
local alike; the remote root always counts as a directory), the command
fails with the "is not a directory" error during validation: the whole
trace consists of listing and metadata calls only, so no transfer has
begun. -/
theorem cp_multi_not_dir_fails_before_transfer
    (fuel : Nat) (sources srcOps exp : List String) (rec : Bool)
    (tdir : Option String) (dest : String) (w : World) (tre : List Ev)
    (hne : ¬ sources = [])
    (hform : cpFormSelect sources false tdir = .ok (srcOps, dest))
    (hexp : expand_source_wildcards srcOps w = (w, tre, .ok exp))
    (hlen : 2 ≤ exp.length)
    (hcons : mixedSources exp = false)
    (hdir : destDirCheck w dest = false) :
    ∃ trv, cp_with_options fuel sources rec false tdir w
        = (w, tre ++ trv,
           .error (.valueErr ("cp: target " ++ dest ++ " is not a directory")))
      ∧ (tre ++ trv).all (fun ev => ! ev.isTransferEv) = true := by
  obtain ⟨trv, hval, hevv⟩ := validate_destination_spec dest w
  rw [hdir] at hval
  simp only [Bool.false_eq_true, if_false] at hval
  obtain ⟨tr2, r2, hspec, hev2⟩ := expand_source_wildcards_spec srcOps w
  rw [hexp] at hspec
  have htr2 : tre = tr2 := congrArg (fun t => t.2.1) hspec
  have hevtre : ∀ ev ∈ tre, ∃ p, ev = Ev.listFolder p := htr2 ▸ hev2
  have hempty : ¬ exp = [] := by
    intro hh
    subst hh
    simp at hlen
  have hvsc : validate_source_consistency exp w = (w, [], .ok ()) := by
    simp [validate_source_consistency, hcons, M.pure]
  have hlt : 1 < exp.length := by omega
  refine ⟨trv, ?_, ?_⟩
  · rw [cp_with_options, if_neg hne, hform]
    show cpBody fuel srcOps dest rec false w = _
    rw [cpBody]
    simp only [M.bind_eq_ok hexp, if_neg hempty, M.bind_eq_ok hvsc, and_true,
      if_pos hlt, M.bind_eq_error hval]
    simp
  · rw [List.all_eq_true]
    intro ev hev
    rcases List.mem_append.mp hev with h | h
    · obtain ⟨p, rfl⟩ := hevtre ev h
      rfl
    · obtain ⟨q, rfl⟩ := hevv ev h
      rfl

/-- Two remote files and no directory at the destination. -/
def cpPairWorld : World :=
  { cwd := "/h", remote := [
      { path := "/a.txt", isFolder := false, size := 1, modified := none },
      { path := "/b.txt", isFolder := false, size := 1, modified := none }],
    localFiles := [], localDirs := [] }

/-- C5 amended witness: cp of two remote files onto a nonexistent remote
destination fails with the not-a-directory error and makes no transfer. -/
theorem cp_multi_not_dir_fails_before_transfer_witness :
    ∃ trv, cp_with_options 1 ["//a.txt", "//b.txt", "//c.txt"] false false none cpPairWorld
        = (cpPairWorld, [] ++ trv,
           .error (.valueErr ("cp: target " ++ "//c.txt" ++ " is not a directory")))
      ∧ ([] ++ trv).all (fun ev => ! ev.isTransferEv) = true :=
  cp_multi_not_dir_fails_before_transfer 1 ["//a.txt", "//b.txt", "//c.txt"]
    ["//a.txt", "//b.txt"] ["//a.txt", "//b.txt"] false none "//c.txt"
    cpPairWorld [] (by decide) rfl rfl (by decide) rfl rfl

/-- A remote folder /w with two files matching the wildcard. -/
def cpTreatWorld : World :=
  { cwd := "/h", remote := [
      { path := "/w", isFolder := true, size := 0, modified := none },
      { path := "/w/a.txt", isFolder := false, size := 1, modified := none },
      { path := "/w/b.txt", isFolder := false, size := 2, modified := none }],
    localFiles := [], localDirs := [] }

/-- C5 counterexample: with -T (treat-as-file), a wildcard source expands
to two sources while the destination //c.txt is not an existing
directory; the directory validation is skipped, no "not a directory"
error is raised, and the transfers are performed (the second one through
the delete-and-retry overwrite). -/
theorem cp_treat_multi_skips_dir_check_counterexample :
    runRes (cp_with_options 2 ["//w/*.txt", "//c.txt"] false true none) cpTreatWorld
        = .ok () ∧
    (runTrace (cp_with_options 2 ["//w/*.txt", "//c.txt"] false true none) cpTreatWorld).any
        (fun ev => ev.isTransferEv) = true ∧
    runRes (expand_source_wildcards ["//w/*.txt"]) cpTreatWorld
        = .ok ["//w/a.txt", "//w/b.txt"] ∧
    destDirCheck cpTreatWorld "//c.txt" = false := by
  refine ⟨?_, ?_, ?_, ?_⟩ <;> rfl
